import Mathlib

/-!
Verification development for the in-memory OPC UA standard namespace
(`src/ua/server/src/server/standard_namespace.cpp`).

The C++ class `StandardNamespaceInMemory` keeps a `std::multimap<ObjectID,
ReferenceDescription>` of references and a `std::vector<AttributeValue>` of
attribute records.  We embed the class state as a structure, the multimap as a
key-sorted list with stable insertion at the upper bound (matching
`std::multimap::insert`), and each member function as a Lean function.

Node, object and reference identities are modelled as natural numbers carrying
the standard OPC UA numeric ids; the enum headers (`opc/ua/...`) are not part
of this repository, so the numeric values and the `NodeClass` bit masks follow
the OPC UA standard that those headers mirror.

The member function `SelectNodesHierarchy` of the C++ source recurses without
any termination guard, so it is embedded with an explicit recursion-depth
budget (`fuel`): `none` means the C++ recursion has not reached a base case
within that depth, and a result that is `none` for every budget corresponds to
a C++ computation that never terminates.
-/

namespace StdNs

/-- Node identity: modelled as the numeric id of the OPC UA node. -/
abbrev NodeID := Nat

/-- Object identity (the `ObjectID` enum); same id space as `NodeID`. -/
abbrev ObjectID := Nat

/-- Attribute identity (the `AttributeID` enum). -/
abbrev AttributeID := Nat

namespace ObjectID

/-- Modelled from the spec: the `ObjectID` enum of the absent
`opc/ua/...` headers, with the standard OPC UA numeric node ids. -/
def Null : ObjectID := 0

def References : ObjectID := 31

def NonHierarchicalReferences : ObjectID := 32

def HierarchicalReferences : ObjectID := 33

def HasChild : ObjectID := 34

def Organizes : ObjectID := 35

def HasEventSource : ObjectID := 36

def HasTypeDefinition : ObjectID := 40

def Aggregates : ObjectID := 44

def HasSubtype : ObjectID := 45

def FolderType : ObjectID := 61

def RootFolder : ObjectID := 84

def ObjectsFolder : ObjectID := 85

def TypesFolder : ObjectID := 86

def ViewsFolder : ObjectID := 87

def ReferenceTypes : ObjectID := 91

end ObjectID

namespace ReferenceID

/-- Modelled from the spec: the `ReferenceID` enum values coincide with the
node ids of the corresponding reference-type nodes. -/
def Organizes : NodeID := 35

def HasTypeDefinition : NodeID := 40

def HasSubtype : NodeID := 45

end ReferenceID

namespace NodeClass

/-- Modelled from the spec: the `NodeClass` enumeration used as a bitmask tag
(standard OPC UA bit values). -/
def Object : Nat := 1

def ObjectType : Nat := 8

def ReferenceType : Nat := 32

end NodeClass

namespace AttributeID

/-- Modelled from the spec: attribute ids (standard OPC UA values). -/
def NODE_ID : AttributeID := 1

def NODE_CLASS : AttributeID := 2

def BROWSE_NAME : AttributeID := 3

def DISPLAY_NAME : AttributeID := 4

def DESCRIPTION : AttributeID := 5

def WRITE_MASK : AttributeID := 6

def USER_WRITE_MASK : AttributeID := 7

end AttributeID

/-- Status codes used by this translation unit.  The full enum lives in the
absent headers; only these three values are mentioned by the source. -/
inductive StatusCode where
  | Good
  | BadNotReadable
  | BadWriteNotSupported
deriving DecidableEq, Repr

/-- Modelled from the spec: a typed attribute value (tagged union).  The
attribute store is never populated by the builder, so only the shape matters. -/
inductive Variant where
  | null
  | nat (n : Nat)
  | str (s : String)
deriving DecidableEq, Repr

/-- Modelled from the spec: `DataValue` encoding-mask bits of the absent
headers (`DATA_VALUE` marks a value, `DATA_VALUE_STATUS_CODE` a status). -/
def DATA_VALUE : Nat := 1

def DATA_VALUE_STATUS_CODE : Nat := 2

/-- A status-tagged data value (fields used by the source: `Encoding`,
`Status`, and the carried value). -/
structure DataValue where
  Encoding : Nat := 0
  Status : StatusCode := StatusCode.Good
  Value : Variant := Variant.null
deriving DecidableEq, Repr

/-- The fields of `ReferenceDescription` set by `AddReference` and read by the
browse path. -/
structure ReferenceDescription where
  TypeID : NodeID
  IsForward : Bool
  TargetNodeID : NodeID
  BrowseName : String
  DisplayName : String
  TargetNodeClass : Nat
  TargetNodeTypeDefinition : NodeID
deriving DecidableEq, Repr

/-- The struct `AttributeValue` of the source. -/
structure AttributeValue where
  Node : NodeID
  Attribute : AttributeID
  Value : DataValue
deriving DecidableEq, Repr

inductive BrowseDirection where
  | Forward
  | Inverse
  | Both
deriving DecidableEq, Repr

/-- The fields of `BrowseDescription` consulted by `IsSuitableReference`. -/
structure BrowseDescription where
  NodeToBrowse : NodeID
  Direction : BrowseDirection
  ReferenceTypeID : NodeID
  IncludeSubtypes : Bool
  NodeClasses : Nat
deriving DecidableEq, Repr

/-- `BrowseParameters` as used by `Browse` (only `Description` is read). -/
structure BrowseParameters where
  Description : BrowseDescription
deriving DecidableEq, Repr

/-- One read request: the element type of `ReadParameters::AttributesToRead`. -/
structure AttributeValueID where
  Node : NodeID
  Attribute : AttributeID
deriving DecidableEq, Repr

structure ReadParameters where
  AttributesToRead : List AttributeValueID
deriving DecidableEq, Repr

/-- One write request (only its presence counts: `Write` uses `values.size()`). -/
structure WriteValue where
  Node : NodeID
  Attribute : AttributeID
  Value : Variant
deriving DecidableEq, Repr

/-- The `ReferenciesMap` entries: a key-sorted association list standing for
`std::multimap<ObjectID, ReferenceDescription>`. -/
abbrev ReferenciesMap := List (ObjectID × ReferenceDescription)

/-- Insertion into the multimap: `std::multimap::insert` places the new pair
at the upper bound of its key, i.e. after every entry with key `≤ k`. -/
def mmInsert (l : ReferenciesMap) (k : ObjectID) (v : ReferenceDescription) :
    ReferenciesMap :=
  match l with
  | [] => [(k, v)]
  | (k', v') :: rest =>
      if k < k' then (k, v) :: (k', v') :: rest
      else (k', v') :: mmInsert rest k v

/-- The state of a `StandardNamespaceInMemory` object: its two data members. -/
structure ServerState where
  Referencies : ReferenciesMap
  AttributeValues : List AttributeValue
deriving DecidableEq, Repr

/-- The constants `forward` and `reverse` of the anonymous namespace. -/
def forward : Bool := true

def reverse : Bool := true

/-- One pass of the loop body inside `SelectNodesHierarchy`: the `subNodes`
vector collecting `refIt->second.TargetNodeID` for every stored reference
whose key occurs in `sourceNodes` (the `std::find` membership test). -/
def collectSubNodes (refs : ReferenciesMap) (sourceNodes : List NodeID) :
    List NodeID :=
  (refs.filter (fun p => decide (p.1 ∈ sourceNodes))).map
    (fun p => p.2.TargetNodeID)

/-- `SelectNodesHierarchy`, with an explicit recursion-depth budget.  The C++
body has no termination guard: it recurses on `subNodes` whenever that vector
is nonempty and appends the recursive result to `sourceNodes`.  `none` means
the recursion did not reach its base case within `fuel` nested calls. -/
def SelectNodesHierarchy (refs : ReferenciesMap) :
    Nat → List NodeID → Option (List NodeID)
  | 0, _ => none
  | Nat.succ n, sourceNodes =>
      if (collectSubNodes refs sourceNodes).isEmpty then
        some sourceNodes
      else
        match SelectNodesHierarchy refs n (collectSubNodes refs sourceNodes) with
        | none => none
        | some allChilds => some (sourceNodes ++ allChilds)

/-- `IsSuitableReferenceType`. -/
def IsSuitableReferenceType (fuel : Nat) (refs : ReferenciesMap)
    (reference : ReferenceDescription) (typeID : NodeID)
    (includeSubtypes : Bool) : Option Bool :=
  if !includeSubtypes then
    some (decide (reference.TypeID = typeID))
  else
    match SelectNodesHierarchy refs fuel [typeID] with
    | none => none
    | some suitableTypes => some (decide (reference.TypeID ∈ suitableTypes))

/-- `IsSuitableReference`: the filter predicate of the browse engine. -/
def IsSuitableReference (fuel : Nat) (refs : ReferenciesMap)
    (desc : BrowseDescription) (refPair : ObjectID × ReferenceDescription) :
    Option Bool :=
  if desc.NodeToBrowse ≠ refPair.1 then
    some false
  else if (desc.Direction = BrowseDirection.Forward ∧ ¬refPair.2.IsForward) ∨
      (desc.Direction = BrowseDirection.Inverse ∧ refPair.2.IsForward) then
    some false
  else
    match (if desc.ReferenceTypeID ≠ ObjectID.Null then
        IsSuitableReferenceType fuel refs refPair.2 desc.ReferenceTypeID
          desc.IncludeSubtypes
      else some true) with
    | none => none
    | some typeOk =>
        if !typeOk then
          some false
        else if desc.NodeClasses ≠ 0 ∧
            Nat.land desc.NodeClasses refPair.2.TargetNodeClass = 0 then
          some false
        else
          some true

/-- The loop of `Browse`: scan the entries, keep those deemed suitable. -/
def browseLoop (fuel : Nat) (allRefs : ReferenciesMap)
    (desc : BrowseDescription) :
    ReferenciesMap → Option (List ReferenceDescription)
  | [] => some []
  | p :: rest =>
      match IsSuitableReference fuel allRefs desc p with
      | none => none
      | some b =>
          match browseLoop fuel allRefs desc rest with
          | none => none
          | some res => some (if b then p.2 :: res else res)

/-- `Browse`. -/
def Browse (fuel : Nat) (s : ServerState) (params : BrowseParameters) :
    Option (List ReferenceDescription) :=
  browseLoop fuel s.Referencies params.Description s.Referencies

/-- `BrowseNext`: always the empty sequence. -/
def BrowseNext (_s : ServerState) : List ReferenceDescription := []

/-- `GetValue`: linear scan of the attribute records; on a miss, a data value
carrying only the `BadNotReadable` status. -/
def GetValue (s : ServerState) (node : NodeID) (attr : AttributeID) :
    DataValue :=
  match s.AttributeValues.find?
      (fun v => decide (v.Node = node) && decide (v.Attribute = attr)) with
  | some v => v.Value
  | none =>
      { Encoding := DATA_VALUE_STATUS_CODE
        Status := StatusCode.BadNotReadable
        Value := Variant.null }

/-- `Read`: one `GetValue` result per request, in request order. -/
def Read (s : ServerState) (params : ReadParameters) : List DataValue :=
  params.AttributesToRead.map (fun a => GetValue s a.Node a.Attribute)

/-- `Write`: a vector of `values.size()` copies of `BadWriteNotSupported`;
the state is returned unchanged (the C++ body touches no member). -/
def Write (s : ServerState) (values : List WriteValue) :
    List StatusCode × ServerState :=
  (List.replicate values.length StatusCode.BadWriteNotSupported, s)

/-- `AddValue` (as written in the source: the passed `value` argument is
ignored and only `Encoding` is set on the stored record). -/
def AddValue (s : ServerState) (node : NodeID) (attr : AttributeID)
    (_value : Variant) : ServerState :=
  let data : AttributeValue :=
    { Node := node
      Attribute := attr
      Value := { Encoding := DATA_VALUE } }
  { s with AttributeValues := s.AttributeValues ++ [data] }

/-- `AddReference`. -/
def AddReference (s : ServerState) (sourceNode : ObjectID) (isForward : Bool)
    (referenceType : NodeID) (targetNode : ObjectID) (name : String)
    (targetNodeClass : Nat) (targetNodeTypeDefinition : ObjectID) :
    ServerState :=
  let desc : ReferenceDescription :=
    { TypeID := referenceType
      IsForward := isForward
      TargetNodeID := targetNode
      BrowseName := name
      DisplayName := name
      TargetNodeClass := targetNodeClass
      TargetNodeTypeDefinition := targetNodeTypeDefinition }
  { s with Referencies := mmInsert s.Referencies sourceNode desc }

namespace Names

/-- Modelled from the spec: the browse-name string constants of the absent
`opc/ua/strings.h` header. -/
def FolderType : String := "FolderType"

def Objects : String := "Objects"

def Types : String := "Types"

def Views : String := "Views"

def ReferenceTypes : String := "ReferenceTypes"

def References : String := "References"

def HierarchicalReferences : String := "HierarchicalReferences"

def NonHierarchicalReferences : String := "NonHierarchicalReferences"

def HasChild : String := "HasChild"

def HasEventSource : String := "HasEventSource"

def Organizes : String := "Organizes"

def Aggregates : String := "Aggregates"

def HasSubtype : String := "HasSubtype"

end Names

namespace Builder

/-- The private member `Root()`. -/
def Root (s : ServerState) : ServerState :=
  let s := AddReference s ObjectID.RootFolder forward
    ReferenceID.HasTypeDefinition ObjectID.FolderType Names.FolderType
    NodeClass.ObjectType ObjectID.Null
  let s := AddReference s ObjectID.RootFolder forward ReferenceID.Organizes
    ObjectID.ObjectsFolder Names.Objects NodeClass.Object ObjectID.FolderType
  let s := AddReference s ObjectID.RootFolder forward ReferenceID.Organizes
    ObjectID.TypesFolder Names.Types NodeClass.Object ObjectID.FolderType
  AddReference s ObjectID.RootFolder forward ReferenceID.Organizes
    ObjectID.ViewsFolder Names.Views NodeClass.Object ObjectID.FolderType

/-- The private member `FillRootAttributes()` (never invoked by `Fill`). -/
def FillRootAttributes (s : ServerState) : ServerState :=
  let s := AddValue s ObjectID.RootFolder AttributeID.NODE_ID
    (Variant.nat ObjectID.RootFolder)
  let s := AddValue s ObjectID.RootFolder AttributeID.NODE_CLASS
    (Variant.nat NodeClass.Object)
  let s := AddValue s ObjectID.RootFolder AttributeID.BROWSE_NAME
    (Variant.str "root")
  let s := AddValue s ObjectID.RootFolder AttributeID.DISPLAY_NAME
    (Variant.str "root")
  let s := AddValue s ObjectID.RootFolder AttributeID.DESCRIPTION
    (Variant.str "root")
  let s := AddValue s ObjectID.RootFolder AttributeID.WRITE_MASK
    (Variant.nat 0)
  AddValue s ObjectID.RootFolder AttributeID.USER_WRITE_MASK (Variant.nat 0)

/-- The private member `Types()`. -/
def Types (s : ServerState) : ServerState :=
  let s := AddReference s ObjectID.TypesFolder forward
    ReferenceID.HasTypeDefinition ObjectID.FolderType Names.FolderType
    NodeClass.ObjectType ObjectID.Null
  AddReference s ObjectID.TypesFolder forward ReferenceID.Organizes
    ObjectID.ReferenceTypes Names.ReferenceTypes NodeClass.Object
    ObjectID.FolderType

/-- The private member `ReferenceTypes()`. -/
def ReferenceTypes (s : ServerState) : ServerState :=
  let s := AddReference s ObjectID.ReferenceTypes forward
    ReferenceID.HasTypeDefinition ObjectID.FolderType Names.ReferenceTypes
    NodeClass.ObjectType ObjectID.Null
  AddReference s ObjectID.ReferenceTypes forward ReferenceID.Organizes
    ObjectID.References Names.References NodeClass.ReferenceType
    ObjectID.Null

/-- The private member `Refs()`. -/
def Refs (s : ServerState) : ServerState :=
  let s := AddReference s ObjectID.References forward ReferenceID.HasSubtype
    ObjectID.HierarchicalReferences Names.HierarchicalReferences
    NodeClass.ReferenceType ObjectID.Null
  AddReference s ObjectID.References forward ReferenceID.HasSubtype
    ObjectID.NonHierarchicalReferences Names.NonHierarchicalReferences
    NodeClass.ReferenceType ObjectID.Null

/-- The private member `HierarchicalReferences()`. -/
def HierarchicalReferences (s : ServerState) : ServerState :=
  let s := AddReference s ObjectID.HierarchicalReferences forward
    ReferenceID.HasSubtype ObjectID.HasChild Names.HasChild
    NodeClass.ReferenceType ObjectID.Null
  let s := AddReference s ObjectID.HierarchicalReferences forward
    ReferenceID.HasSubtype ObjectID.HasEventSource Names.HasEventSource
    NodeClass.ReferenceType ObjectID.Null
  AddReference s ObjectID.HierarchicalReferences forward
    ReferenceID.HasSubtype ObjectID.Organizes Names.Organizes
    NodeClass.ReferenceType ObjectID.Null

/-- The private member `HasChild()`. -/
def HasChild (s : ServerState) : ServerState :=
  let s := AddReference s ObjectID.HasChild forward ReferenceID.HasSubtype
    ObjectID.Aggregates Names.Aggregates NodeClass.ReferenceType
    ObjectID.Null
  AddReference s ObjectID.HasChild forward ReferenceID.HasSubtype
    ObjectID.HasSubtype Names.HasSubtype NodeClass.ReferenceType
    ObjectID.Null

/-- The private member `HasEventSource()` (empty body). -/
def HasEventSource (s : ServerState) : ServerState := s

/-- The private member `Organizes()` (empty body). -/
def Organizes (s : ServerState) : ServerState := s

/-- The private member `FillAttributes()` (never invoked by `Fill`). -/
def FillAttributes (s : ServerState) : ServerState :=
  FillRootAttributes s

/-- The private member `Fill()`: the calls it makes, in order. -/
def Fill (s : ServerState) : ServerState :=
  let s := Root s
  let s := Types s
  let s := ReferenceTypes s
  let s := Refs s
  let s := HierarchicalReferences s
  let s := HasChild s
  let s := HasEventSource s
  Organizes s

end Builder

/-- The empty state of a freshly default-constructed object, before `Fill`. -/
def emptyState : ServerState := { Referencies := [], AttributeValues := [] }

/-- The state of a `StandardNamespaceInMemory` after its constructor ran. -/
def initialState : ServerState := Builder.Fill emptyState

/-- Modelled from the spec: the expansion step as the spec words it — only
`HasSubtype`-typed references whose source is in the frontier contribute
their targets.  Compared against `collectSubNodes`, which is translated from
the source. -/
def collectSubNodesSpec (refs : ReferenciesMap) (sourceNodes : List NodeID) :
    List NodeID :=
  (refs.filter (fun p =>
      decide (p.1 ∈ sourceNodes) &&
      decide (p.2.TypeID = ReferenceID.HasSubtype))).map
    (fun p => p.2.TargetNodeID)

/-- A `HasSubtype` reference from node 1 to node 2. -/
def cycleRefTo2 : ReferenceDescription :=
  { TypeID := ReferenceID.HasSubtype
    IsForward := true
    TargetNodeID := 2
    BrowseName := "B"
    DisplayName := "B"
    TargetNodeClass := NodeClass.ReferenceType
    TargetNodeTypeDefinition := ObjectID.Null }

/-- A `HasSubtype` reference from node 2 back to node 1. -/
def cycleRefTo1 : ReferenceDescription :=
  { TypeID := ReferenceID.HasSubtype
    IsForward := true
    TargetNodeID := 1
    BrowseName := "A"
    DisplayName := "A"
    TargetNodeClass := NodeClass.ReferenceType
    TargetNodeTypeDefinition := ObjectID.Null }

/-- A reference store whose `HasSubtype` edges form the cycle 1 → 2 → 1. -/
def cycleRefs : ReferenciesMap := [(1, cycleRefTo2), (2, cycleRefTo1)]

/-- An `Organizes` (not `HasSubtype`) reference from node 1 to node 2. -/
def organizesRefTo2 : ReferenceDescription :=
  { TypeID := ReferenceID.Organizes
    IsForward := true
    TargetNodeID := 2
    BrowseName := "B"
    DisplayName := "B"
    TargetNodeClass := NodeClass.ReferenceType
    TargetNodeTypeDefinition := ObjectID.Null }

/-- A store holding a single `Organizes` reference 1 → 2. -/
def organizesOnlyRefs : ReferenciesMap := [(1, organizesRefTo2)]

/-- A store holding a single `HasSubtype` reference 1 → 2 (acyclic). -/
def chainRefs : ReferenciesMap := [(1, cycleRefTo2)]

/-- The `HasSubtype` reference stored for `References` → `HierarchicalReferences`. -/
def refsHierarchicalRef : ReferenceDescription :=
  { TypeID := ReferenceID.HasSubtype
    IsForward := true
    TargetNodeID := ObjectID.HierarchicalReferences
    BrowseName := Names.HierarchicalReferences
    DisplayName := Names.HierarchicalReferences
    TargetNodeClass := NodeClass.ReferenceType
    TargetNodeTypeDefinition := ObjectID.Null }

/-- The `HasSubtype` reference stored for `References` → `NonHierarchicalReferences`. -/
def refsNonHierarchicalRef : ReferenceDescription :=
  { TypeID := ReferenceID.HasSubtype
    IsForward := true
    TargetNodeID := ObjectID.NonHierarchicalReferences
    BrowseName := Names.NonHierarchicalReferences
    DisplayName := Names.NonHierarchicalReferences
    TargetNodeClass := NodeClass.ReferenceType
    TargetNodeTypeDefinition := ObjectID.Null }

/-- The `HasTypeDefinition` reference stored for `RootFolder` → `FolderType`. -/
def rootFolderTypeRef : ReferenceDescription :=
  { TypeID := ReferenceID.HasTypeDefinition
    IsForward := true
    TargetNodeID := ObjectID.FolderType
    BrowseName := Names.FolderType
    DisplayName := Names.FolderType
    TargetNodeClass := NodeClass.ObjectType
    TargetNodeTypeDefinition := ObjectID.Null }

/-- The `Organizes` reference stored for `RootFolder` → `ObjectsFolder`. -/
def rootObjectsRef : ReferenceDescription :=
  { TypeID := ReferenceID.Organizes
    IsForward := true
    TargetNodeID := ObjectID.ObjectsFolder
    BrowseName := Names.Objects
    DisplayName := Names.Objects
    TargetNodeClass := NodeClass.Object
    TargetNodeTypeDefinition := ObjectID.FolderType }

/-- The `Organizes` reference stored for `RootFolder` → `TypesFolder`. -/
def rootTypesRef : ReferenceDescription :=
  { TypeID := ReferenceID.Organizes
    IsForward := true
    TargetNodeID := ObjectID.TypesFolder
    BrowseName := Names.Types
    DisplayName := Names.Types
    TargetNodeClass := NodeClass.Object
    TargetNodeTypeDefinition := ObjectID.FolderType }

/-- The `Organizes` reference stored for `RootFolder` → `ViewsFolder`. -/
def rootViewsRef : ReferenceDescription :=
  { TypeID := ReferenceID.Organizes
    IsForward := true
    TargetNodeID := ObjectID.ViewsFolder
    BrowseName := Names.Views
    DisplayName := Names.Views
    TargetNodeClass := NodeClass.Object
    TargetNodeTypeDefinition := ObjectID.FolderType }

/-- The browse query of the C3 scenario. -/
def c3Params : BrowseParameters :=
  ⟨{ NodeToBrowse := ObjectID.References
     Direction := BrowseDirection.Forward
     ReferenceTypeID := ReferenceID.HasSubtype
     IncludeSubtypes := true
     NodeClasses := 0 }⟩

/-- The browse query of the C8 scenario. -/
def c8Params : BrowseParameters :=
  ⟨{ NodeToBrowse := ObjectID.RootFolder
     Direction := BrowseDirection.Forward
     ReferenceTypeID := ObjectID.Null
     IncludeSubtypes := false
     NodeClasses := NodeClass.ObjectType }⟩

/-- The named nodes of the bootstrap taxonomy of the spec's section 4.4
(the `FolderType` type-definition target is not a taxonomy node). -/
def taxonomyNodes : List ObjectID :=
  [ObjectID.RootFolder, ObjectID.ObjectsFolder, ObjectID.TypesFolder,
   ObjectID.ViewsFolder, ObjectID.ReferenceTypes, ObjectID.References,
   ObjectID.HierarchicalReferences, ObjectID.NonHierarchicalReferences,
   ObjectID.HasChild, ObjectID.HasEventSource, ObjectID.Organizes,
   ObjectID.Aggregates, ObjectID.HasSubtype]

/-- The (source, reference type, target) triples of the stored references
whose endpoints are both taxonomy nodes, in store order. -/
def taxonomyEdges : List (ObjectID × NodeID × ObjectID) :=
  (initialState.Referencies.filter (fun p =>
      decide (p.1 ∈ taxonomyNodes) &&
      decide (p.2.TargetNodeID ∈ taxonomyNodes))).map
    (fun p => (p.1, p.2.TypeID, p.2.TargetNodeID))

/-- Iterated expansion step of the hierarchy walk: `stepIter refs k xs` is
the frontier after `k` passes of the `subNodes` collection. -/
def stepIter (refs : ReferenciesMap) : Nat → List NodeID → List NodeID
  | 0, xs => xs
  | Nat.succ k, xs => collectSubNodes refs (stepIter refs k xs)

theorem mem_collectSubNodes {refs : ReferenciesMap} {frontier : List NodeID}
    {t : NodeID} :
    t ∈ collectSubNodes refs frontier ↔
      ∃ p, p ∈ refs ∧ p.1 ∈ frontier ∧ p.2.TargetNodeID = t := by
  simp only [collectSubNodes, List.mem_map, List.mem_filter,
    decide_eq_true_eq]
  constructor
  · rintro ⟨p, ⟨hp, hsrc⟩, htgt⟩
    exact ⟨p, hp, hsrc, htgt⟩
  · rintro ⟨p, hp, hsrc, htgt⟩
    exact ⟨p, ⟨hp, hsrc⟩, htgt⟩

theorem collectSubNodes_nil (refs : ReferenciesMap) :
    collectSubNodes refs [] = [] := by
  simp [collectSubNodes]

theorem stepIter_nil (refs : ReferenciesMap) (k : Nat) :
    stepIter refs k [] = [] := by
  induction k with
  | zero => rfl
  | succ k ih => simp [stepIter, ih, collectSubNodes_nil]

theorem stepIter_succ_inner (refs : ReferenciesMap) (k : Nat)
    (xs : List NodeID) :
    stepIter refs (k + 1) xs = stepIter refs k (collectSubNodes refs xs) := by
  induction k with
  | zero => rfl
  | succ k ih =>
    show collectSubNodes refs (stepIter refs (k + 1) xs) = _
    rw [ih]
    rfl

theorem SelectNodesHierarchy_zero (refs : ReferenciesMap) (xs : List NodeID) :
    SelectNodesHierarchy refs 0 xs = none := rfl

theorem SelectNodesHierarchy_succ (refs : ReferenciesMap) (n : Nat)
    (xs : List NodeID) :
    SelectNodesHierarchy refs (n + 1) xs =
      if (collectSubNodes refs xs).isEmpty then some xs
      else
        match SelectNodesHierarchy refs n (collectSubNodes refs xs) with
        | none => none
        | some allChilds => some (xs ++ allChilds) := rfl

theorem mem_SelectNodesHierarchy (refs : ReferenciesMap) :
    ∀ (n : Nat) (xs r : List NodeID),
      SelectNodesHierarchy refs n xs = some r →
      ∀ t, (t ∈ r ↔ ∃ k, t ∈ stepIter refs k xs) := by
  intro n
  induction n with
  | zero =>
    intro xs r h t
    rw [SelectNodesHierarchy_zero] at h
    exact Option.noConfusion h
  | succ n ih =>
    intro xs r h t
    rw [SelectNodesHierarchy_succ] at h
    by_cases hE : (collectSubNodes refs xs).isEmpty
    · rw [if_pos hE] at h
      injection h with h
      subst h
      constructor
      · intro ht
        exact ⟨0, ht⟩
      · rintro ⟨k, hk⟩
        cases k with
        | zero => exact hk
        | succ k =>
          rw [stepIter_succ_inner] at hk
          rw [List.isEmpty_iff] at hE
          rw [hE, stepIter_nil] at hk
          exact absurd hk (List.not_mem_nil t)
    · rw [if_neg hE] at h
      cases hrec : SelectNodesHierarchy refs n (collectSubNodes refs xs) with
      | none =>
        rw [hrec] at h
        exact Option.noConfusion h
      | some r2 =>
        rw [hrec] at h
        injection h with h
        subst h
        have ihx := ih (collectSubNodes refs xs) r2 hrec
        constructor
        · intro ht
          rcases List.mem_append.mp ht with hx | hx
          · exact ⟨0, hx⟩
          · obtain ⟨k, hk⟩ := (ihx t).mp hx
            refine ⟨k + 1, ?_⟩
            rw [stepIter_succ_inner]
            exact hk
        · rintro ⟨k, hk⟩
          cases k with
          | zero => exact List.mem_append.mpr (Or.inl hk)
          | succ k =>
            rw [stepIter_succ_inner] at hk
            exact List.mem_append.mpr (Or.inr ((ihx t).mpr ⟨k, hk⟩))

theorem iter_empties_of_some (refs : ReferenciesMap) :
    ∀ (n : Nat) (xs r : List NodeID),
      SelectNodesHierarchy refs n xs = some r →
      ∃ k, stepIter refs k xs = [] := by
  intro n
  induction n with
  | zero =>
    intro xs r h
    rw [SelectNodesHierarchy_zero] at h
    exact Option.noConfusion h
  | succ n ih =>
    intro xs r h
    rw [SelectNodesHierarchy_succ] at h
    by_cases hE : (collectSubNodes refs xs).isEmpty
    · refine ⟨1, ?_⟩
      rw [List.isEmpty_iff] at hE
      show collectSubNodes refs (stepIter refs 0 xs) = []
      exact hE
    · rw [if_neg hE] at h
      cases hrec : SelectNodesHierarchy refs n (collectSubNodes refs xs) with
      | none =>
        rw [hrec] at h
        exact Option.noConfusion h
      | some r2 =>
        obtain ⟨k, hk⟩ := ih (collectSubNodes refs xs) r2 hrec
        refine ⟨k + 1, ?_⟩
        rw [stepIter_succ_inner]
        exact hk

theorem some_of_iter_empty (refs : ReferenciesMap) :
    ∀ (k : Nat) (xs : List NodeID),
      stepIter refs k xs = [] →
      ∃ r, SelectNodesHierarchy refs (k + 1) xs = some r := by
  intro k
  induction k with
  | zero =>
    intro xs h
    refine ⟨[], ?_⟩
    subst h
    rw [SelectNodesHierarchy_succ]
    rw [collectSubNodes_nil]
    rfl
  | succ k ih =>
    intro xs h
    rw [stepIter_succ_inner] at h
    obtain ⟨r2, hr2⟩ := ih (collectSubNodes refs xs) h
    by_cases hE : (collectSubNodes refs xs).isEmpty
    · refine ⟨xs, ?_⟩
      rw [SelectNodesHierarchy_succ]
      rw [if_pos hE]
    · refine ⟨xs ++ r2, ?_⟩
      rw [SelectNodesHierarchy_succ]
      rw [if_neg hE, hr2]

theorem stepIter_dead (refs : ReferenciesMap) (k j : Nat) (xs : List NodeID)
    (h : stepIter refs k xs = []) : stepIter refs (k + j) xs = [] := by
  induction j with
  | zero => exact h
  | succ j ih =>
    show collectSubNodes refs (stepIter refs (k + j) xs) = []
    rw [ih, collectSubNodes_nil]

theorem stepIter_absorb (refs : ReferenciesMap) (xs ys : List NodeID)
    (h0 : ∀ t ∈ ys, ∃ k, t ∈ stepIter refs k xs) :
    ∀ (j : Nat) (t : NodeID),
      t ∈ stepIter refs j ys → ∃ k, t ∈ stepIter refs (k + j) xs := by
  intro j
  induction j with
  | zero =>
    intro t ht
    obtain ⟨k, hk⟩ := h0 t ht
    exact ⟨k, hk⟩
  | succ j ih =>
    intro t ht
    have ht2 : t ∈ collectSubNodes refs (stepIter refs j ys) := ht
    obtain ⟨p, hp, hsrc, htgt⟩ := mem_collectSubNodes.mp ht2
    obtain ⟨k, hk⟩ := ih p.1 hsrc
    refine ⟨k, ?_⟩
    show t ∈ collectSubNodes refs (stepIter refs (k + j) xs)
    exact mem_collectSubNodes.mpr ⟨p, hp, hk, htgt⟩

theorem isSuitable_direction_forward (fuel : Nat) (refs : ReferenciesMap)
    (node refType : NodeID) (incl : Bool) (mask : Nat)
    (p : ObjectID × ReferenceDescription) (hp : p.2.IsForward = true) :
    IsSuitableReference fuel refs
      ⟨node, BrowseDirection.Inverse, refType, incl, mask⟩ p = some false ∧
    IsSuitableReference fuel refs
      ⟨node, BrowseDirection.Both, refType, incl, mask⟩ p =
    IsSuitableReference fuel refs
      ⟨node, BrowseDirection.Forward, refType, incl, mask⟩ p := by
  unfold IsSuitableReference
  by_cases hsrc : node ≠ p.1
  · simp [hsrc]
  · simp [hsrc, hp]

theorem isSuitable_direction_inverse (fuel : Nat) (refs : ReferenciesMap)
    (node refType : NodeID) (incl : Bool) (mask : Nat)
    (p : ObjectID × ReferenceDescription) (hp : p.2.IsForward = false) :
    IsSuitableReference fuel refs
      ⟨node, BrowseDirection.Forward, refType, incl, mask⟩ p = some false ∧
    IsSuitableReference fuel refs
      ⟨node, BrowseDirection.Both, refType, incl, mask⟩ p =
    IsSuitableReference fuel refs
      ⟨node, BrowseDirection.Inverse, refType, incl, mask⟩ p := by
  unfold IsSuitableReference
  by_cases hsrc : node ≠ p.1
  · simp [hsrc]
  · simp [hsrc, hp]

theorem browseLoop_both_perm (fuel : Nat) (refs : ReferenciesMap)
    (node refType : NodeID) (incl : Bool) (mask : Nat) :
    ∀ (l : ReferenciesMap) (b f i : List ReferenceDescription),
      browseLoop fuel refs
        ⟨node, BrowseDirection.Both, refType, incl, mask⟩ l = some b →
      browseLoop fuel refs
        ⟨node, BrowseDirection.Forward, refType, incl, mask⟩ l = some f →
      browseLoop fuel refs
        ⟨node, BrowseDirection.Inverse, refType, incl, mask⟩ l = some i →
      b.Perm (f ++ i) := by
  intro l
  induction l with
  | nil =>
    intro b f i hb hf hi
    simp only [browseLoop] at hb hf hi
    injection hb with hb
    injection hf with hf
    injection hi with hi
    subst hb
    subst hf
    subst hi
    simp
  | cons p rest ih =>
    intro b f i hb hf hi
    simp only [browseLoop] at hb hf hi
    by_cases hfwd : p.2.IsForward = true
    · obtain ⟨hInv, hBoth⟩ :=
        isSuitable_direction_forward fuel refs node refType incl mask p hfwd
      rw [hInv] at hi
      rw [hBoth] at hb
      cases hri : browseLoop fuel refs
          ⟨node, BrowseDirection.Inverse, refType, incl, mask⟩ rest with
      | none =>
        rw [hri] at hi
        exact Option.noConfusion hi
      | some ri =>
        rw [hri] at hi
        have hi2 : ri = i := by simpa using hi
        subst hi2
        cases ho : IsSuitableReference fuel refs
            ⟨node, BrowseDirection.Forward, refType, incl, mask⟩ p with
        | none =>
          rw [ho] at hf
          exact Option.noConfusion hf
        | some tb =>
          rw [ho] at hb hf
          cases hrb : browseLoop fuel refs
              ⟨node, BrowseDirection.Both, refType, incl, mask⟩ rest with
          | none =>
            rw [hrb] at hb
            exact Option.noConfusion hb
          | some rb =>
            cases hrf : browseLoop fuel refs
                ⟨node, BrowseDirection.Forward, refType, incl, mask⟩ rest with
            | none =>
              rw [hrf] at hf
              exact Option.noConfusion hf
            | some rf =>
              rw [hrb] at hb
              rw [hrf] at hf
              injection hb with hb
              injection hf with hf
              have hperm := ih rb rf ri hrb hrf hri
              subst hb
              subst hf
              cases tb with
              | false => simpa using hperm
              | true =>
                simp only [if_pos rfl]
                exact hperm.cons p.2
    · have hfwd2 : p.2.IsForward = false := by
        revert hfwd
        cases p.2.IsForward <;> simp
      obtain ⟨hFwd, hBoth⟩ :=
        isSuitable_direction_inverse fuel refs node refType incl mask p hfwd2
      rw [hFwd] at hf
      rw [hBoth] at hb
      cases hrf : browseLoop fuel refs
          ⟨node, BrowseDirection.Forward, refType, incl, mask⟩ rest with
      | none =>
        rw [hrf] at hf
        exact Option.noConfusion hf
      | some rf =>
        rw [hrf] at hf
        have hf2 : rf = f := by simpa using hf
        subst hf2
        cases ho : IsSuitableReference fuel refs
            ⟨node, BrowseDirection.Inverse, refType, incl, mask⟩ p with
        | none =>
          rw [ho] at hi
          exact Option.noConfusion hi
        | some tb =>
          rw [ho] at hb hi
          cases hrb : browseLoop fuel refs
              ⟨node, BrowseDirection.Both, refType, incl, mask⟩ rest with
          | none =>
            rw [hrb] at hb
            exact Option.noConfusion hb
          | some rb =>
            cases hri : browseLoop fuel refs
                ⟨node, BrowseDirection.Inverse, refType, incl, mask⟩ rest with
            | none =>
              rw [hri] at hi
              exact Option.noConfusion hi
            | some ri =>
              rw [hrb] at hb
              rw [hri] at hi
              injection hb with hb
              injection hi with hi
              have hperm := ih rb rf ri hrb hrf hri
              subst hb
              subst hi
              cases tb with
              | false => simpa using hperm
              | true =>
                simp only [if_pos rfl]
                exact (hperm.cons p.2).trans List.perm_middle.symm

end StdNs

open StdNs

/-- C1: the claim asserts that `SelectNodesHierarchy` terminates on every
reference store, including one whose `HasSubtype` edges form the cycle
1 → 2 → 1.  The source has no visited-set guard: on `cycleRefs` with seed
{1} the recursion alternates between frontiers {2} and {1} and never reaches
its base case, so for every recursion-depth budget the fuel model returns
`none` — the C++ recursion never terminates. -/
theorem claim_C1_cycle_never_terminates :
    ∀ n : Nat, SelectNodesHierarchy cycleRefs n [1] = none := by
  have key : ∀ n : Nat, SelectNodesHierarchy cycleRefs n [1] = none ∧
      SelectNodesHierarchy cycleRefs n [2] = none := by
    intro n
    induction n with
    | zero => exact ⟨rfl, rfl⟩
    | succ n ih =>
      constructor
      · rw [SelectNodesHierarchy_succ]
        have h1 : collectSubNodes cycleRefs [1] = [2] := rfl
        rw [h1, ih.2]
        rfl
      · rw [SelectNodesHierarchy_succ]
        have h2 : collectSubNodes cycleRefs [2] = [1] := rfl
        rw [h2, ih.1]
        rfl
  exact fun n => (key n).1

/-- C2 counterexample: with a single `Organizes` (not `HasSubtype`) reference
1 → 2, the expansion step of the source still collects 2, while the step the
spec words (only `HasSubtype`-typed references contribute) collects nothing;
consequently the closure of {1} contains 2. -/
theorem claim_C2_counterexample :
    collectSubNodes organizesOnlyRefs [1] = [2] ∧
    collectSubNodesSpec organizesOnlyRefs [1] = [] ∧
    SelectNodesHierarchy organizesOnlyRefs 2 [1] = some [1, 2] ∧
    organizesRefTo2.TypeID ≠ ReferenceID.HasSubtype := by
  refine ⟨rfl, rfl, rfl, by decide⟩

/-- C2 (amended): at each expansion step the hierarchy walk collects exactly
the targets of ALL stored references whose source is in the current frontier,
regardless of the reference's type. -/
theorem claim_C2_step_follows_every_reference_type
    (refs : ReferenciesMap) (frontier : List NodeID) (t : NodeID) :
    t ∈ collectSubNodes refs frontier ↔
      ∃ p, p ∈ refs ∧ p.1 ∈ frontier ∧ p.2.TargetNodeID = t :=
  mem_collectSubNodes

/-- C3 counterexample: on the bootstrap store the browse of the scenario
returns exactly the two direct references of `References`, whose targets are
`HierarchicalReferences` and `NonHierarchicalReferences`; no returned
reference targets `HasChild` or `Aggregates`, contradicting the claimed
seven-element transitive answer. -/
theorem claim_C3_counterexample :
    Browse 2 initialState c3Params =
      some [refsHierarchicalRef, refsNonHierarchicalRef] ∧
    refsHierarchicalRef.TargetNodeID ≠ ObjectID.HasChild ∧
    refsNonHierarchicalRef.TargetNodeID ≠ ObjectID.HasChild ∧
    refsHierarchicalRef.TargetNodeID ≠ ObjectID.Aggregates ∧
    refsNonHierarchicalRef.TargetNodeID ≠ ObjectID.Aggregates := by
  refine ⟨rfl, by decide, by decide, by decide, by decide⟩

/-- C3 (amended): browse never leaves the node being browsed — the subtype
closure only widens the set of admissible reference types.  On the bootstrap
store the scenario query returns exactly the two direct `HasSubtype`
references of `References` (to `HierarchicalReferences` and
`NonHierarchicalReferences`), and no others. -/
theorem claim_C3_browse_is_not_transitive :
    Browse 2 initialState c3Params =
      some [refsHierarchicalRef, refsNonHierarchicalRef] ∧
    refsHierarchicalRef.TypeID = ReferenceID.HasSubtype ∧
    refsNonHierarchicalRef.TypeID = ReferenceID.HasSubtype := by
  exact ⟨rfl, rfl, rfl⟩

/-- C4: `Write` returns one `BadWriteNotSupported` status per request, in a
sequence of exactly the request count, and leaves the state — hence every
subsequent `Read` and `Browse` result — unchanged. -/
theorem claim_C4_write_rejects_everything (s : ServerState)
    (values : List WriteValue) :
    (Write s values).1.length = values.length ∧
    (∀ c ∈ (Write s values).1, c = StatusCode.BadWriteNotSupported) ∧
    (Write s values).2 = s ∧
    (∀ params, Read (Write s values).2 params = Read s params) ∧
    (∀ fuel params, Browse fuel (Write s values).2 params = Browse fuel s params) := by
  refine ⟨?_, ?_, rfl, fun _ => rfl, fun _ _ => rfl⟩
  · simp [Write]
  · intro c hc
    exact List.eq_of_mem_replicate hc

/-- C5: `Read` returns exactly one `DataValue` per request in request order,
and a request whose (node, attribute) pair matches no stored record yields
the `BadNotReadable` status value — not an omitted element and not a fault. -/
theorem claim_C5_read_one_result_per_request (s : ServerState)
    (params : ReadParameters) :
    (Read s params).length = params.AttributesToRead.length ∧
    (∀ i : Nat, (Read s params)[i]? =
      (params.AttributesToRead[i]?).map (fun a => GetValue s a.Node a.Attribute)) ∧
    (∀ node attr,
      (∀ v ∈ s.AttributeValues, v.Node ≠ node ∨ v.Attribute ≠ attr) →
      GetValue s node attr =
        { Encoding := DATA_VALUE_STATUS_CODE
          Status := StatusCode.BadNotReadable
          Value := Variant.null }) := by
  refine ⟨by simp [Read], ?_, ?_⟩
  · intro i
    simp [Read]
  · intro node attr hmiss
    have hfind : s.AttributeValues.find?
        (fun v => decide (v.Node = node) && decide (v.Attribute = attr)) = none := by
      rw [List.find?_eq_none]
      intro v hv
      rcases hmiss v hv with h | h <;> simp [h]
    simp [GetValue, hfind]

/-- C5 witness: reading a never-inserted attribute of the constructed store
yields the `BadNotReadable` sentinel. -/
theorem claim_C5_witness :
    GetValue initialState ObjectID.RootFolder AttributeID.BROWSE_NAME =
      { Encoding := DATA_VALUE_STATUS_CODE
        Status := StatusCode.BadNotReadable
        Value := Variant.null } :=
  (claim_C5_read_one_result_per_request initialState ⟨[]⟩).2.2
    ObjectID.RootFolder AttributeID.BROWSE_NAME (by decide)

/-- C6: the constructor's `Fill` pass inserts references only — it never calls
`FillAttributes`/`FillRootAttributes` — so after construction the attribute
store is empty and every read of every (node, attribute) pair returns the
`BadNotReadable` sentinel. -/
theorem claim_C6_attribute_store_empty_after_construction :
    initialState.AttributeValues = [] ∧
    ∀ (node : NodeID) (attr : AttributeID),
      GetValue initialState node attr =
        { Encoding := DATA_VALUE_STATUS_CODE
          Status := StatusCode.BadNotReadable
          Value := Variant.null } := by
  refine ⟨rfl, ?_⟩
  intro node attr
  have h : initialState.AttributeValues = [] := rfl
  simp [GetValue, h]

/-- C7: browsing a node with direction `Both` returns exactly the union of
the `Forward` and `Inverse` browse results for that node (all other query
fields equal): the same references, each exactly as often — no duplicates
introduced and none omitted. -/
theorem claim_C7_both_is_forward_union_inverse (fuel : Nat)
    (s : ServerState) (node refType : NodeID) (incl : Bool) (mask : Nat)
    (b f i : List ReferenceDescription)
    (hb : Browse fuel s
      ⟨⟨node, BrowseDirection.Both, refType, incl, mask⟩⟩ = some b)
    (hf : Browse fuel s
      ⟨⟨node, BrowseDirection.Forward, refType, incl, mask⟩⟩ = some f)
    (hi : Browse fuel s
      ⟨⟨node, BrowseDirection.Inverse, refType, incl, mask⟩⟩ = some i) :
    b.Perm (f ++ i) :=
  browseLoop_both_perm fuel s.Referencies node refType incl mask
    s.Referencies b f i hb hf hi

/-- C7 witness: on the bootstrap store, browsing `RootFolder` with direction
`Both` is a permutation of the forward results followed by the (empty)
inverse results. -/
theorem claim_C7_witness :
    ([rootFolderTypeRef, rootObjectsRef, rootTypesRef, rootViewsRef] :
        List ReferenceDescription).Perm
      ([rootFolderTypeRef, rootObjectsRef, rootTypesRef, rootViewsRef] ++ []) :=
  claim_C7_both_is_forward_union_inverse 1 initialState
    ObjectID.RootFolder ObjectID.Null false 0
    [rootFolderTypeRef, rootObjectsRef, rootTypesRef, rootViewsRef]
    [rootFolderTypeRef, rootObjectsRef, rootTypesRef, rootViewsRef] []
    (by rfl) (by rfl) (by rfl)

/-- C8: on the bootstrap store, browsing `RootFolder` forward with node-class
mask `ObjectType` returns exactly the `HasTypeDefinition` reference to
`FolderType`; the three `Organizes` references (target class `Object`) are
filtered out by the mask. -/
theorem claim_C8_node_class_mask_scenario :
    Browse 1 initialState c8Params = some [rootFolderTypeRef] ∧
    rootFolderTypeRef.TargetNodeID = ObjectID.FolderType ∧
    rootFolderTypeRef.TypeID = ReferenceID.HasTypeDefinition ∧
    rootFolderTypeRef.TargetNodeClass = NodeClass.ObjectType := by
  exact ⟨rfl, rfl, rfl, rfl⟩

/-- C9: among the named taxonomy nodes, the constructor inserts exactly the
twelve bootstrap edges of the spec's section 4.4 (the model of the builder is
a pure function of no inputs, so the edge set is identical across any two
constructions). -/
theorem claim_C9_bootstrap_edge_set :
    taxonomyEdges =
      [(ObjectID.References, ReferenceID.HasSubtype, ObjectID.HierarchicalReferences),
       (ObjectID.References, ReferenceID.HasSubtype, ObjectID.NonHierarchicalReferences),
       (ObjectID.HierarchicalReferences, ReferenceID.HasSubtype, ObjectID.HasChild),
       (ObjectID.HierarchicalReferences, ReferenceID.HasSubtype, ObjectID.HasEventSource),
       (ObjectID.HierarchicalReferences, ReferenceID.HasSubtype, ObjectID.Organizes),
       (ObjectID.HasChild, ReferenceID.HasSubtype, ObjectID.Aggregates),
       (ObjectID.HasChild, ReferenceID.HasSubtype, ObjectID.HasSubtype),
       (ObjectID.RootFolder, ReferenceID.Organizes, ObjectID.ObjectsFolder),
       (ObjectID.RootFolder, ReferenceID.Organizes, ObjectID.TypesFolder),
       (ObjectID.RootFolder, ReferenceID.Organizes, ObjectID.ViewsFolder),
       (ObjectID.TypesFolder, ReferenceID.Organizes, ObjectID.ReferenceTypes),
       (ObjectID.ReferenceTypes, ReferenceID.Organizes, ObjectID.References)] := by
  rfl

/-- C10: whenever the hierarchy walk terminates on a singleton seed {T} with
result `res`, applying it again to `res` also terminates and returns the same
set of identities — the result is a fixed point of the closure. -/
theorem claim_C10_closure_idempotent (refs : ReferenciesMap) (T : NodeID)
    (n : Nat) (res : List NodeID)
    (h : SelectNodesHierarchy refs n [T] = some res) :
    ∃ m res2, SelectNodesHierarchy refs m res = some res2 ∧
      ∀ t, (t ∈ res2 ↔ t ∈ res) := by
  obtain ⟨k0, hk0⟩ := iter_empties_of_some refs n [T] res h
  have hmem := mem_SelectNodesHierarchy refs n [T] res h
  have h0 : ∀ t ∈ res, ∃ k, t ∈ stepIter refs k [T] := fun t ht => (hmem t).mp ht
  have hResDead : stepIter refs k0 res = [] := by
    rw [List.eq_nil_iff_forall_not_mem]
    intro t ht
    obtain ⟨k, hk⟩ := stepIter_absorb refs [T] res h0 k0 t ht
    have hdead : stepIter refs (k0 + k) [T] = [] :=
      stepIter_dead refs k0 k [T] hk0
    rw [Nat.add_comm] at hdead
    rw [hdead] at hk
    exact absurd hk (List.not_mem_nil t)
  obtain ⟨res2, hres2⟩ := some_of_iter_empty refs k0 res hResDead
  have hmem2 := mem_SelectNodesHierarchy refs (k0 + 1) res res2 hres2
  refine ⟨k0 + 1, res2, hres2, fun t => ⟨?_, ?_⟩⟩
  · intro ht
    obtain ⟨j, hj⟩ := (hmem2 t).mp ht
    obtain ⟨k, hk⟩ := stepIter_absorb refs [T] res h0 j t hj
    exact (hmem t).mpr ⟨k + j, hk⟩
  · intro ht
    exact (hmem2 t).mpr ⟨0, ht⟩

/-- C10 witness: on the acyclic one-edge store, the closure of {1} is [1, 2],
and reapplying the walk to [1, 2] reaches the same set. -/
theorem claim_C10_witness :
    ∃ m res2, SelectNodesHierarchy chainRefs m [1, 2] = some res2 ∧
      ∀ t, (t ∈ res2 ↔ t ∈ [1, 2]) :=
  claim_C10_closure_idempotent chainRefs 1 3 [1, 2] (by rfl)
